import Mathlib

/-!
Verification of the weather-data quality pipeline core: the missing-value
gap analysis and bounded imputation module (`imputation缺失值处理模块.py`),
the 3-sigma outlier detector (`quality_check.py`), and the report
aggregator (`report_generator.py`).

Numeric values of the imputation and report modules are modelled as `ℚ`;
a nullable entry of a series is `Option ℚ` with `none` standing for `NaN`.
The detector additionally needs a square root (sample standard deviation),
so its values live in `ℝ`, again with `none` for `NaN`, and `NaN`
propagation of pandas arithmetic is made explicit on `Option ℝ`.
-/

set_option linter.unusedVariables false

namespace WeatherPipeline

/-! ### Series and frames (imputation / report modules) -/

/-- A nullable numeric entry of a pandas Series; `none` is `NaN`. -/
abbrev QVal := Option ℚ

/-- `Series.isna` for one entry. -/
def isna (v : QVal) : Bool := v.isNone

/-- A DataFrame, reduced to what the modules under verification touch:
named numeric columns, plus the optional `timestamp` column used by
time-aware interpolation (`'timestamp' in df.columns`). -/
structure Frame where
  cols : List (String × List QVal)
  timestamps : Option (List ℚ)
deriving DecidableEq

/-- Column lookup, `df[column]`; `none` when the column is absent. -/
def getCol (f : Frame) (c : String) : Option (List QVal) :=
  (f.cols.find? (fun p => p.1 == c)).map (fun p => p.2)

/-- Column assignment, `df[column] = values`. -/
def setCol (f : Frame) (c : String) (v : List QVal) : Frame :=
  ⟨f.cols.map (fun p => if p.1 == c then (p.1, v) else p), f.timestamps⟩

/-- `df[column].isna().sum()`. -/
def countMissing (s : List QVal) : ℕ := (s.map isna).count true

/-- Index and value of the last non-null entry strictly before `i`. -/
def prevValid (s : List QVal) (i : ℕ) : Option (ℕ × ℚ) :=
  (List.range i).reverse.findSome? (fun j => (s.getD j none).map (fun v => (j, v)))

/-- Index and value of the first non-null entry strictly after `i`. -/
def nextValid (s : List QVal) (i : ℕ) : Option (ℕ × ℚ) :=
  (List.range' (i + 1) (s.length - (i + 1))).findSome?
    (fun j => (s.getD j none).map (fun v => (j, v)))

/-- `Series.interpolate(method='linear')` with pandas' default
`limit_direction='forward'`: a null between two non-null entries is filled
by index-weighted linear interpolation, a trailing null is filled with the
last non-null value, and a leading null (no earlier non-null entry) stays
null. -/
def interpolateLinear (s : List QVal) : List QVal :=
  s.mapIdx (fun i v =>
    match v with
    | some x => some x
    | none =>
      match prevValid s i, nextValid s i with
      | some (j, a), some (k, b) =>
          some (a + (b - a) * (((i : ℚ) - (j : ℚ)) / ((k : ℚ) - (j : ℚ))))
      | some (_, a), none => some a
      | none, _ => none)

/-- `Series.interpolate(method='pad')`: forward fill; leading nulls stay. -/
def interpolatePad (s : List QVal) : List QVal :=
  s.mapIdx (fun i v =>
    match v with
    | some x => some x
    | none => (prevValid s i).map (fun p => p.2))

/-- `Series.interpolate(method='nearest')`: an interior null takes the
value of the nearest non-null neighbour by index distance (ties to the
earlier one); trailing nulls take the last value, leading nulls stay. -/
def interpolateNearest (s : List QVal) : List QVal :=
  s.mapIdx (fun i v =>
    match v with
    | some x => some x
    | none =>
      match prevValid s i, nextValid s i with
      | some (j, a), some (k, b) => some (if i - j ≤ k - i then a else b)
      | some (_, a), none => some a
      | none, _ => none)

/-- `Series.interpolate(method='time')` after `set_index('timestamp')`:
like linear interpolation but weighted by the timestamp values instead of
the positional index. -/
def interpolateTime (ts : List ℚ) (s : List QVal) : List QVal :=
  s.mapIdx (fun i v =>
    match v with
    | some x => some x
    | none =>
      match prevValid s i, nextValid s i with
      | some (j, a), some (k, b) =>
          some (a + (b - a) * ((ts.getD i 0 - ts.getD j 0) / (ts.getD k 0 - ts.getD j 0)))
      | some (_, a), none => some a
      | none, _ => none)

/-- `linear_impute(df, column, max_gap, method)`.

Mirrors the source line by line: a missing column raises `ValueError`
(the `Except.error` channel); a column with no missing values is returned
unchanged; otherwise the whole column is interpolated with the requested
method.  The `max_gap` block of the source (lines 40-53) only *prints*
which runs of nulls are longer than `max_gap` — it never excludes them
from the interpolation that follows — so `max_gap` has no effect on the
returned data.  The `method == 'time'` branch is taken only when a
`timestamp` column exists; otherwise `'time'` falls through to the final
`else`, which warns about an unknown method and interpolates linearly.
The `try/except` fallback of the source is unreachable here because the
embedded interpolation functions are total. -/
def linear_impute (df : Frame) (column : String) (max_gap : Option ℕ)
    (method : String) : Except String Frame :=
  match getCol df column with
  | none => Except.error ("列 '" ++ column ++ "' 不在DataFrame中")
  | some s =>
    if countMissing s = 0 then Except.ok df
    else
      let filled :=
        if method == "time" && df.timestamps.isSome then
          interpolateTime (df.timestamps.getD []) s
        else if method == "linear" then interpolateLinear s
        else if method == "pad" then interpolatePad s
        else if method == "nearest" then interpolateNearest s
        else interpolateLinear s
      Except.ok (setCol df column filled)

/-! ### Gap statistics (`get_missing_stats`) -/

/-- The record returned by `get_missing_stats`.  The source also carries a
`missing_percentage` display string, a fixed-point rendering of
`missing_rate`; it is omitted as pure formatting. -/
structure MissingStats where
  total_missing : ℕ
  missing_rate : ℚ
  gap_count : ℕ
  max_gap_length : ℕ
  avg_gap_length : ℚ
  gap_lengths : List ℕ
deriving DecidableEq

/-- `get_missing_stats` returns a plain dict in both cases: either the
statistics, or — for an absent column — a dict holding an error message.
Nothing is raised, hence no `Except` in the type. -/
inductive StatsResult where
  | error (msg : String)
  | stats (s : MissingStats)
deriving DecidableEq

/-- Partition a boolean mask into maximal runs of equal consecutive
values: the embedding of `groups = (mask != mask.shift()).cumsum()`
followed by `mask.groupby(groups)`, whose groups are exactly these runs,
iterated in encounter order. -/
def chunkRuns (l : List Bool) : List (List Bool) :=
  match l with
  | [] => []
  | b :: rest =>
      (b :: rest.takeWhile (· == b)) :: chunkRuns (rest.dropWhile (· == b))
termination_by l.length
decreasing_by
  simp only [List.length_cons]
  exact Nat.lt_succ_of_le (List.dropWhile_sublist _).length_le

/-- The `gap_lengths` accumulation of `get_missing_stats`: for every run,
`if group.any(): gap_lengths.append(group.sum())` — keep the null-runs
and record the count of `True` entries of each (its length). -/
def gapLengths (mask : List Bool) : List ℕ :=
  (chunkRuns mask).filterMap (fun g => if g.any id then some (g.count true) else none)

/-- `get_missing_stats(df, column)`.

For an absent column the source *returns* `{"error": ...}` (it does not
raise).  `missing_rate` is computed unconditionally as
`total_missing / len(df)`; on an empty frame this divides zero by zero
(a NaN in numpy, `0` in `ℚ`), but the value is then unused because the
`total_missing > 0` branch is not taken and the `else` branch hard-codes
`missing_rate = 0.0`. -/
def get_missing_stats (df : Frame) (column : String) : StatsResult :=
  match getCol df column with
  | none => StatsResult.error ("列 '" ++ column ++ "' 不存在")
  | some s =>
    let missing_mask := s.map isna
    let total_missing := missing_mask.count true
    let missing_rate : ℚ := (total_missing : ℚ) / (s.length : ℚ)
    if total_missing > 0 then
      let gls := gapLengths missing_mask
      StatsResult.stats
        ⟨total_missing, missing_rate, gls.length,
         if gls.isEmpty then 0 else gls.foldl max 0,
         if gls.isEmpty then 0 else (gls.sum : ℚ) / (gls.length : ℚ),
         gls⟩
    else
      StatsResult.stats ⟨0, 0, 0, 0, 0, []⟩

/-- Reference description of the maximal null runs of a mask, written
independently of the `groupby` mechanics: scan left to right, skip `false`
entries, and at each `true` entry record the length of the maximal block
of consecutive `true`s it starts, then continue after that block. -/
def trueRunLengths : List Bool → List ℕ
  | [] => []
  | false :: rest => trueRunLengths rest
  | true :: rest =>
      ((rest.takeWhile (· == true)).length + 1) :: trueRunLengths (rest.dropWhile (· == true))
termination_by l => l.length
decreasing_by
  all_goals simp only [List.length_cons]
  · exact Nat.lt_succ_of_le (Nat.le_refl _)
  · exact Nat.lt_succ_of_le (List.dropWhile_sublist _).length_le

/-! ### Report aggregator (`report_generator.py`) -/

namespace QualityReportGenerator

/-- `QualityReportGenerator._get_missing_stats(df, column)`: the report
generator's own copy of the gap statistics, identical to
`get_missing_stats` except that the rate division is guarded by
`if len(df) > 0 else 0`.  As there, an absent column yields a *returned*
error dict. -/
def getMissingStats (df : Frame) (column : String) : StatsResult :=
  match getCol df column with
  | none => StatsResult.error ("列 '" ++ column ++ "' 不存在")
  | some s =>
    let missing_mask := s.map isna
    let total_missing := missing_mask.count true
    let missing_rate : ℚ :=
      if s.length > 0 then (total_missing : ℚ) / (s.length : ℚ) else 0
    if total_missing > 0 then
      let gls := gapLengths missing_mask
      StatsResult.stats
        ⟨total_missing, missing_rate, gls.length,
         if gls.isEmpty then 0 else gls.foldl max 0,
         if gls.isEmpty then 0 else (gls.sum : ℚ) / (gls.length : ℚ),
         gls⟩
    else
      StatsResult.stats ⟨0, 0, 0, 0, 0, []⟩

/-- The `summary` block of `generate_missing_analysis`.  In the source
`improvement_percentage` is a fixed-point display string; its numeric
value is modelled. -/
structure MissingSummary where
  missing_fixed : ℤ
  missing_remaining : ℕ
  improvement_percentage : ℚ
deriving DecidableEq

/-- The dict returned by `generate_missing_analysis`. -/
structure MissingAnalysis where
  raw_data : MissingStats
  cleaned_data : MissingStats
  summary : MissingSummary
deriving DecidableEq

/-- `QualityReportGenerator.generate_missing_analysis(column)` over the
generator's `raw_df` and `cleaned_df`.  If either `_get_missing_stats`
call returns the error dict, the subsequent `["total_missing"]` accesses
raise `KeyError` — the `Except.error` case. -/
def generate_missing_analysis (raw_df cleaned_df : Frame) (column : String) :
    Except String MissingAnalysis :=
  match getMissingStats raw_df column, getMissingStats cleaned_df column with
  | StatsResult.stats r, StatsResult.stats c =>
      Except.ok
        ⟨r, c,
         ⟨(r.total_missing : ℤ) - (c.total_missing : ℤ),
          c.total_missing,
          if r.missing_rate > 0 then (1 - c.missing_rate / r.missing_rate) * 100
          else 100⟩⟩
  | _, _ => Except.error "KeyError: 'total_missing'"

end QualityReportGenerator

/-! ### 3-sigma outlier detector (`quality_check.py`)

Detector values are `Option ℝ` with `none` for `NaN`; the helper
operations below spell out the `NaN` propagation of pandas scalar
arithmetic and the `NaN`-rejecting comparisons of pandas Series
comparison (`NaN < x`, `x < NaN` are both false). -/

/-- A nullable real, `none` standing for `NaN`. -/
abbrev RVal := Option ℝ

/-- Addition with `NaN` propagation. -/
def rvAdd : RVal → RVal → RVal
  | some a, some b => some (a + b)
  | _, _ => none

/-- Subtraction with `NaN` propagation. -/
def rvSub : RVal → RVal → RVal
  | some a, some b => some (a - b)
  | _, _ => none

/-- Multiplication by the plain scalar `sigma_level`, with `NaN`
propagation from the right operand. -/
def rvScale (k : ℝ) : RVal → RVal
  | some a => some (k * a)
  | none => none

/-- The strict comparison of pandas; any comparison involving `NaN` is
false. -/
def rvLt : RVal → RVal → Prop
  | some a, some b => a < b
  | _, _ => False

/-- The non-null values of a series (what pandas `skipna` aggregations
see). -/
def nonNull (s : List RVal) : List ℝ := s.filterMap id

noncomputable section RealValued

/-- `Series.mean()`: mean of the non-null values, `NaN` when there are
none. -/
def pmean (s : List RVal) : RVal :=
  let xs := nonNull s
  if xs.length = 0 then none else some (xs.sum / (xs.length : ℝ))

/-- `Series.std()`: sample standard deviation (`ddof=1`) of the non-null
values, `NaN` when there are fewer than two of them. -/
def pstd (s : List RVal) : RVal :=
  let xs := nonNull s
  if xs.length < 2 then none
  else
    some (Real.sqrt
      ((xs.map (fun x => (x - xs.sum / (xs.length : ℝ)) ^ 2)).sum /
        ((xs.length : ℝ) - 1)))

/-- The `self.thresholds` dict once populated by `fit`. -/
structure Thresholds where
  mean : RVal
  std : RVal
  upper_bound : RVal
  lower_bound : RVal

/-- Detector state: the configured sigma level and the thresholds dict,
`none` while still the empty dict of `__init__`. -/
structure ThreeSigmaDetector where
  sigma_level : ℝ
  thresholds : Option Thresholds

/-- `ThreeSigmaDetector.__init__(sigma_level)`: stores the level — any
value, no validation — and the empty thresholds dict. -/
def ThreeSigmaDetector.init (sigma_level : ℝ) : ThreeSigmaDetector :=
  ⟨sigma_level, none⟩

/-- `fit(data_series)`: store mean, std and the two bounds
`mean ± sigma_level * std`. -/
def ThreeSigmaDetector.fit (d : ThreeSigmaDetector) (data_series : List RVal) :
    ThreeSigmaDetector :=
  let mean := pmean data_series
  let std := pstd data_series
  ⟨d.sigma_level,
   some ⟨mean, std,
         rvAdd mean (rvScale d.sigma_level std),
         rvSub mean (rvScale d.sigma_level std)⟩⟩

/-- One entry of the boolean Series returned by `detect`:
`(value < lower_bound) | (value > upper_bound)`. -/
def isAnomaly (t : Thresholds) (v : RVal) : Prop :=
  rvLt v t.lower_bound ∨ rvLt t.upper_bound v

/-- Placeholder thresholds; never observed, since `detect` reads the
thresholds only after ensuring they are populated. -/
def emptyThresholds : Thresholds := ⟨none, none, none, none⟩

/-- The state update of `detect`: `if not self.thresholds: self.fit(...)`.
A populated thresholds dict — whatever it holds, `NaN`s included — is
kept as is. -/
def ThreeSigmaDetector.detectState (d : ThreeSigmaDetector)
    (data_series : List RVal) : ThreeSigmaDetector :=
  match d.thresholds with
  | some _ => d
  | none => d.fit data_series

/-- `detect(data_series)`: the (possibly auto-fitted) state together with
the anomaly flags, one per input position. -/
def ThreeSigmaDetector.detect (d : ThreeSigmaDetector)
    (data_series : List RVal) : ThreeSigmaDetector × List Prop :=
  let d2 := d.detectState data_series
  (d2, data_series.map (isAnomaly (d2.thresholds.getD emptyThresholds)))

/-- Whether `detect` flags position `i`; out-of-range positions are not
flagged. -/
def detectFlag (d : ThreeSigmaDetector) (s : List RVal) (i : ℕ) : Prop :=
  (d.detect s).2.getD i False

end RealValued

/-! ### Concrete inputs used by the claim theorems -/

/-- The spec's C1 scenario frame: `[1,2,NaN,NaN,NaN,6,7]`. -/
def c1_df : Frame :=
  ⟨[("temperature", [some 1, some 2, none, none, none, some 6, some 7])], none⟩

/-- A series with null runs of lengths `[3,1,6]` (length 13, 10 nulls). -/
def c3_df : Frame :=
  ⟨[("temperature",
     [some 0, none, none, none, some 1, none, some 2,
      none, none, none, none, none, none])], none⟩

/-- Raw/cleaned pair for the report aggregator: one null fixed. -/
def c5_raw_df : Frame := ⟨[("temperature", [some 1, none])], none⟩

/-- Cleaned counterpart of `c5_raw_df`: no nulls left. -/
def c5_cleaned_df : Frame := ⟨[("temperature", [some 1, some 2])], none⟩

/-- A frame whose target column has length 0. -/
def c6_df : Frame := ⟨[("temperature", [])], none⟩

/-- A frame without a `humidity` column. -/
def c7_df : Frame := ⟨[("temperature", [some 1, none, some 3])], none⟩

/-- A frame with a null but no timestamp column. -/
def c9_df : Frame := ⟨[("temperature", [some 1, none, some 3])], none⟩

end WeatherPipeline

namespace WeatherPipeline

/-! ### Run-length lemmas -/

theorem mem_takeWhile_beq {b x : Bool} {l : List Bool}
    (h : x ∈ l.takeWhile (· == b)) : x = b := by
  have := List.mem_takeWhile_imp h
  simpa using this

theorem trueRunLengths_dropWhile_false (l : List Bool) :
    trueRunLengths (l.dropWhile (· == false)) = trueRunLengths l := by
  induction l with
  | nil => rfl
  | cons b rest ih =>
    cases b
    · rw [List.dropWhile_cons_of_pos (by decide), ih]
      simp [trueRunLengths]
    · rw [List.dropWhile_cons_of_neg (by decide)]

theorem gapLengths_eq_trueRunLengths (l : List Bool) :
    gapLengths l = trueRunLengths l := by
  induction l using chunkRuns.induct with
  | case1 => simp [gapLengths, chunkRuns, trueRunLengths]
  | case2 b rest ih =>
    rw [gapLengths, chunkRuns, List.filterMap_cons]
    rw [gapLengths] at ih
    cases b
    · have hany : (false :: rest.takeWhile (· == false)).any id = false := by
        rw [List.any_eq_false]
        intro x hx
        rcases List.mem_cons.1 hx with h | h
        · subst h; decide
        · rw [mem_takeWhile_beq h]; decide
      rw [hany]
      simp only [Bool.false_eq_true, if_false]
      rw [ih, trueRunLengths_dropWhile_false]
      simp [trueRunLengths]
    · have hany : (true :: rest.takeWhile (· == true)).any id = true := by
        simp [List.any_eq_true]
      rw [hany]
      simp only [if_true]
      have hcount : (true :: rest.takeWhile (· == true)).count true =
          (rest.takeWhile (· == true)).length + 1 := by
        have hall : ∀ x ∈ true :: rest.takeWhile (· == true), true = x := by
          intro x hx
          rcases List.mem_cons.1 hx with h | h
          · exact h.symm
          · exact (mem_takeWhile_beq h).symm
        rw [List.count_eq_length.2 hall, List.length_cons]
      rw [hcount, ih]
      simp [trueRunLengths]

theorem trueRunLengths_eq_nil {l : List Bool} (h : l.count true = 0) :
    trueRunLengths l = [] := by
  induction l with
  | nil => simp [trueRunLengths]
  | cons b rest ih =>
    cases b
    · rw [List.count_cons] at h
      simp only [show ((false == true) = false) from rfl, if_false] at h
      simpa [trueRunLengths] using ih (by simpa using h)
    · rw [List.count_cons] at h
      simp at h

theorem init_le_foldl_max (l : List ℕ) (a : ℕ) : a ≤ l.foldl max a := by
  induction l generalizing a with
  | nil => exact le_refl a
  | cons y ys ih => exact le_trans (le_max_left a y) (ih (max a y))

theorem le_foldl_max {x : ℕ} {l : List ℕ} (a : ℕ) (hx : x ∈ l) : x ≤ l.foldl max a := by
  induction l generalizing a with
  | nil => cases hx
  | cons y ys ih =>
    rcases List.mem_cons.1 hx with h | h
    · subst h
      exact le_trans (le_max_right a x) (init_le_foldl_max ys (max a x))
    · exact ih (max a y) h

theorem foldl_max_mem (l : List ℕ) (a : ℕ) : l.foldl max a = a ∨ l.foldl max a ∈ l := by
  induction l generalizing a with
  | nil => exact Or.inl rfl
  | cons y ys ih =>
    rcases ih (max a y) with h | h
    · rcases Nat.le_total a y with hay | hya
      · right
        rw [List.foldl_cons, h, max_eq_right hay]
        exact List.mem_cons_self _ _
      · left
        rw [List.foldl_cons, h, max_eq_left hya]
    · right
      exact List.mem_cons_of_mem _ h

theorem foldl_max_mem_of_ne_nil {gls : List ℕ} (h : gls ≠ []) : gls.foldl max 0 ∈ gls := by
  rcases foldl_max_mem gls 0 with h0 | hm
  · rcases gls with _ | ⟨y, ys⟩
    · exact absurd rfl h
    · have hy : y ≤ 0 := by
        calc y ≤ (y :: ys).foldl max 0 := le_foldl_max 0 (List.mem_cons_self y ys)
          _ = 0 := h0
      rw [h0, ← Nat.le_zero.1 hy]
      exact List.mem_cons_self y ys
  · exact hm

/-! ### Claim theorems: imputation and gap analysis -/

/-- C1: the claim says runs longer than `max_gap` stay null; the code
contradicts it (and its own docstring).  At the spec's own scenario
`[1,2,NaN,NaN,NaN,6,7]` with `max_gap=2`, the 3-long null run is filled
anyway, giving `[1,2,3,4,5,6,7]`: the `max_gap` loop only prints, it
excludes nothing from the interpolation. -/
theorem C1_maxgap_not_enforced :
    linear_impute c1_df "temperature" (some 2) "linear" =
      Except.ok ⟨[("temperature",
        [some 1, some 2, some 3, some 4, some 5, some 6, some 7])], none⟩ := by
  norm_num [linear_impute, c1_df, getCol, setCol, countMissing, isna, interpolateLinear,
    prevValid, nextValid, List.findSome?, List.range', List.mapIdx, List.mapIdx.go,
    List.range_succ, List.find?, List.count_cons]

/-- C3: for every series, `get_missing_stats` lists the lengths of the
maximal null runs in encounter order (`trueRunLengths` of the null mask),
`gap_count` is the number of those runs, and `max_gap_length` is their
largest element. -/
theorem C3_gap_analysis (df : Frame) (column : String) (s : List QVal)
    (st : MissingStats)
    (hcol : getCol df column = some s)
    (hst : get_missing_stats df column = StatsResult.stats st) :
    st.gap_lengths = trueRunLengths (s.map isna) ∧
    st.gap_count = st.gap_lengths.length ∧
    (∀ x ∈ st.gap_lengths, x ≤ st.max_gap_length) ∧
    (st.gap_lengths ≠ [] → st.max_gap_length ∈ st.gap_lengths) := by
  have hmask := gapLengths_eq_trueRunLengths (s.map isna)
  simp only [get_missing_stats, hcol] at hst
  split at hst
  next htot =>
    cases hst
    refine ⟨hmask, rfl, ?_, ?_⟩
    · intro x hx
      simp only [List.isEmpty_iff, List.ne_nil_of_mem hx, if_false]
      exact le_foldl_max 0 hx
    · intro hne
      simp only [List.isEmpty_iff, hne, if_false]
      exact foldl_max_mem_of_ne_nil hne
  next htot =>
    cases hst
    have hc : (s.map isna).count true = 0 := by omega
    refine ⟨(trueRunLengths_eq_nil hc).symm, rfl, ?_, ?_⟩
    · intro x hx
      cases hx
    · intro hne
      exact absurd rfl hne

/-- C3 witness: the series with null runs `[3,1,6]`. -/
theorem C3_gap_analysis_witness :
    ([3, 1, 6] : List ℕ) =
      trueRunLengths (([some (0:ℚ), none, none, none, some 1, none, some 2,
        none, none, none, none, none, none]).map isna) ∧
    (3 : ℕ) = ([3, 1, 6] : List ℕ).length ∧
    (∀ x ∈ ([3, 1, 6] : List ℕ), x ≤ 6) ∧
    (([3, 1, 6] : List ℕ) ≠ [] → (6 : ℕ) ∈ ([3, 1, 6] : List ℕ)) :=
  C3_gap_analysis c3_df "temperature" _ ⟨10, 10/13, 3, 6, 10/3, [3, 1, 6]⟩
    (by norm_num [c3_df, getCol, List.find?])
    (by norm_num [get_missing_stats, c3_df, getCol, isna, gapLengths, chunkRuns,
      List.find?, List.count_cons, List.filterMap_cons])

/-- C6: on a frame whose target column has length 0, both copies of the
missing-segment analyzer return the all-zero statistics (rate 0) as a
normal value; the embedding is total, nothing is raised. -/
theorem C6_empty_series_stats :
    get_missing_stats c6_df "temperature" = StatsResult.stats ⟨0, 0, 0, 0, 0, []⟩ ∧
    QualityReportGenerator.getMissingStats c6_df "temperature" =
      StatsResult.stats ⟨0, 0, 0, 0, 0, []⟩ := by
  constructor
  · norm_num [get_missing_stats, c6_df, getCol, List.find?]
  · norm_num [QualityReportGenerator.getMissingStats, c6_df, getCol, List.find?]

/-- C7 (counterexample): for an absent column the gap analyzer returns
the error dict as an ordinary value — the claim's "never a silently
returned value" is false for it. -/
theorem C7_counterexample :
    get_missing_stats c7_df "humidity" =
      StatsResult.error ("列 '" ++ "humidity" ++ "' 不存在") := by
  norm_num [get_missing_stats, c7_df, getCol, List.find?,
    show ("temperature" == "humidity") = false from by decide]

/-- C7 (amended): for every frame and absent column, `linear_impute`
raises `ValueError` while `get_missing_stats` returns an error dict
without raising. -/
theorem C7_amended (df : Frame) (column : String) (max_gap : Option ℕ)
    (method : String) (h : getCol df column = none) :
    linear_impute df column max_gap method =
      Except.error ("列 '" ++ column ++ "' 不在DataFrame中") ∧
    get_missing_stats df column =
      StatsResult.error ("列 '" ++ column ++ "' 不存在") := by
  constructor
  · simp [linear_impute, h]
  · simp [get_missing_stats, h]

/-- C7 witness: a concrete frame without a `humidity` column. -/
theorem C7_amended_witness :
    linear_impute c7_df "humidity" (some 5) "linear" =
      Except.error ("列 '" ++ "humidity" ++ "' 不在DataFrame中") ∧
    get_missing_stats c7_df "humidity" =
      StatsResult.error ("列 '" ++ "humidity" ++ "' 不存在") :=
  C7_amended c7_df "humidity" (some 5) "linear"
    (by norm_num [c7_df, getCol, List.find?,
      show ("temperature" == "humidity") = false from by decide])

/-- C9 (counterexample): requesting `method='time'` on a frame without a
timestamp column does not fail; the imputer falls through to the default
branch and returns a linearly imputed result. -/
theorem C9_counterexample :
    linear_impute c9_df "temperature" none "time" =
      Except.ok ⟨[("temperature", [some 1, some 2, some 3])], none⟩ := by
  norm_num [linear_impute, c9_df, getCol, setCol, countMissing, isna, interpolateLinear,
    prevValid, nextValid, List.findSome?, List.range', List.mapIdx, List.mapIdx.go,
    List.range_succ, List.find?, List.count_cons]
  intro
  rw [if_neg (by decide), if_neg (by decide)]

/-- C9 (amended): for every frame lacking timestamps whose target column
has missing values, `method='time'` silently performs index-based linear
interpolation (after a warning) instead of raising `MissingTimeIndex`. -/
theorem C9_amended (df : Frame) (column : String) (max_gap : Option ℕ)
    (s : List QVal)
    (hts : df.timestamps = none)
    (hcol : getCol df column = some s)
    (hmiss : countMissing s ≠ 0) :
    linear_impute df column max_gap "time" =
      Except.ok (setCol df column (interpolateLinear s)) := by
  simp only [linear_impute, hcol, hmiss, hts]
  norm_num
  rw [if_neg (by decide), if_neg (by decide), if_neg (by decide)]

/-- C9 witness: the concrete no-timestamp frame. -/
theorem C9_amended_witness :
    linear_impute c9_df "temperature" (some 5) "time" =
      Except.ok (setCol c9_df "temperature"
        (interpolateLinear [some 1, none, some 3])) :=
  C9_amended c9_df "temperature" (some 5) _
    rfl
    (by norm_num [c9_df, getCol, List.find?])
    (by norm_num [countMissing, isna, List.count_cons])

/-! ### Claim theorems: report aggregator -/

/-- C5: whenever `generate_missing_analysis` produces an analysis, its
`raw_data`/`cleaned_data` are the two `_get_missing_stats` results,
`missing_fixed` is raw total minus cleaned total, and the improvement
percentage follows the `(1 - cleaned_rate/raw_rate) * 100` formula with
the `100%` special case for a zero raw rate. -/
theorem C5_missing_analysis (raw_df cleaned_df : Frame) (column : String)
    (a : QualityReportGenerator.MissingAnalysis)
    (h : QualityReportGenerator.generate_missing_analysis raw_df cleaned_df column =
      Except.ok a) :
    QualityReportGenerator.getMissingStats raw_df column =
      StatsResult.stats a.raw_data ∧
    QualityReportGenerator.getMissingStats cleaned_df column =
      StatsResult.stats a.cleaned_data ∧
    a.summary.missing_fixed =
      (a.raw_data.total_missing : ℤ) - (a.cleaned_data.total_missing : ℤ) ∧
    (0 < a.raw_data.missing_rate →
      a.summary.improvement_percentage =
        (1 - a.cleaned_data.missing_rate / a.raw_data.missing_rate) * 100) ∧
    (a.raw_data.missing_rate = 0 → a.summary.improvement_percentage = 100) := by
  unfold QualityReportGenerator.generate_missing_analysis at h
  rcases hraw : QualityReportGenerator.getMissingStats raw_df column with msg | r
  · rw [hraw] at h
    cases h
  rcases hcln : QualityReportGenerator.getMissingStats cleaned_df column with msg | c
  · rw [hraw, hcln] at h
    cases h
  rw [hraw, hcln] at h
  cases h
  refine ⟨rfl, rfl, rfl, ?_, ?_⟩
  · intro hpos
    simp only [hpos, if_pos]
  · intro hzero
    have : ¬ 0 < r.missing_rate := by rw [hzero]; exact lt_irrefl 0
    simp only [this, if_false]

/-- C5 witness: one fixed null; raw rate `1/2`, cleaned rate `0`. -/
theorem C5_missing_analysis_witness :
    QualityReportGenerator.getMissingStats c5_raw_df "temperature" =
      StatsResult.stats ⟨1, 1/2, 1, 1, 1, [1]⟩ ∧
    QualityReportGenerator.getMissingStats c5_cleaned_df "temperature" =
      StatsResult.stats ⟨0, 0, 0, 0, 0, []⟩ ∧
    (1 : ℤ) = ((1 : ℕ) : ℤ) - ((0 : ℕ) : ℤ) ∧
    (0 < (1/2 : ℚ) →
      (100 : ℚ) = (1 - (0 : ℚ) / (1/2 : ℚ)) * 100) ∧
    ((1/2 : ℚ) = 0 → (100 : ℚ) = 100) :=
  C5_missing_analysis c5_raw_df c5_cleaned_df "temperature"
    ⟨⟨1, 1/2, 1, 1, 1, [1]⟩, ⟨0, 0, 0, 0, 0, []⟩, ⟨1, 0, 100⟩⟩
    (by norm_num [QualityReportGenerator.generate_missing_analysis,
      QualityReportGenerator.getMissingStats, c5_raw_df, c5_cleaned_df, getCol,
      List.find?, isna, gapLengths, chunkRuns, List.count_cons, List.filterMap_cons])

/-! ### Detector lemmas -/

theorem rvLt_none_right (v : RVal) : ¬ rvLt v none := by
  cases v <;> simp [rvLt]

theorem rvLt_none_left (v : RVal) : ¬ rvLt none v := by
  cases v <;> simp [rvLt]

theorem rvAdd_none_right (v : RVal) : rvAdd v none = none := by
  cases v <;> rfl

theorem rvSub_none_right (v : RVal) : rvSub v none = none := by
  cases v <;> rfl

theorem isAnomaly_none (t : Thresholds) : ¬ isAnomaly t none :=
  fun h => h.elim (rvLt_none_left _) (rvLt_none_right _)

theorem getD_eq_getElem?_getD (s : List RVal) (i : ℕ) :
    s.getD i none = (s[i]?).getD none := by
  simp [List.getD]

theorem detectFlag_iff {d : ThreeSigmaDetector} {t : Thresholds}
    (h : d.thresholds = some t) (s : List RVal) (i : ℕ) :
    detectFlag d s i ↔ ∃ v, s.getD i none = some v ∧ isAnomaly t (some v) := by
  have hst : d.detectState s = d := by
    unfold ThreeSigmaDetector.detectState
    rw [h]
  unfold detectFlag ThreeSigmaDetector.detect
  rw [hst]
  simp only [h, Option.getD_some]
  rw [show (s.map (isAnomaly t)).getD i False = ((s.map (isAnomaly t))[i]?).getD False
        from by simp [List.getD],
      List.getElem?_map, getD_eq_getElem?_getD]
  rcases hv : s[i]? with _ | w
  · simp only [Option.map_none', Option.getD_none]
    constructor
    · intro hf
      exact hf.elim
    · rintro ⟨v, hv2, -⟩
      cases hv2
  · simp only [Option.map_some', Option.getD_some]
    cases w with
    | none =>
      constructor
      · intro hf
        exact (isAnomaly_none t hf).elim
      · rintro ⟨v, hv2, -⟩
        cases hv2
    | some v0 =>
      constructor
      · intro hf
        exact ⟨v0, rfl, hf⟩
      · rintro ⟨v, hv2, ha⟩
        cases hv2
        exact ha

theorem isAnomaly_fit_iff (k : ℝ) (s : List RVal) (v : ℝ) :
    isAnomaly ⟨pmean s, pstd s, rvAdd (pmean s) (rvScale k (pstd s)),
      rvSub (pmean s) (rvScale k (pstd s))⟩ (some v) ↔
    ∃ m d, pmean s = some m ∧ pstd s = some d ∧
      (v < m - k * d ∨ m + k * d < v) := by
  rcases hm : pmean s with _ | m <;> rcases hd : pstd s with _ | d <;>
    simp [isAnomaly, rvAdd, rvSub, rvScale, rvLt]

theorem mem_nonNull_of_getD {s : List RVal} {i : ℕ} {v : ℝ}
    (h : s.getD i none = some v) : v ∈ nonNull s := by
  rw [getD_eq_getElem?_getD] at h
  rcases hv : s[i]? with _ | w
  · rw [hv] at h
    cases h
  · rw [hv] at h
    simp only [Option.getD_some] at h
    subst h
    exact List.mem_filterMap.2 ⟨some v, List.getElem?_mem hv, rfl⟩

theorem sum_allEq {xs : List ℝ} {c : ℝ} (h : ∀ x ∈ xs, x = c) :
    xs.sum = xs.length * c := by
  induction xs with
  | nil => simp
  | cons y ys ih =>
    rw [List.sum_cons, ih (fun x hx => h x (List.mem_cons_of_mem _ hx)),
      h y (List.mem_cons_self _ _), List.length_cons]
    push_cast
    ring

theorem map_sum_zero {xs : List ℝ} {f : ℝ → ℝ} (h : ∀ x ∈ xs, f x = 0) :
    (xs.map f).sum = 0 := by
  induction xs with
  | nil => simp
  | cons y ys ih =>
    rw [List.map_cons, List.sum_cons, h y (List.mem_cons_self _ _),
      ih (fun x hx => h x (List.mem_cons_of_mem _ hx)), add_zero]

/-! ### Claim theorems: 3-sigma detector -/

/-- C2: after `fit(S)` with sigma level `k`, `detect(S)` flags exactly
the positions holding a value strictly outside `mean ± k·std` (mean and
sample std over the non-null values of `S`); a null position is never
flagged, and when all non-null values are equal nothing is flagged. -/
theorem C2_detect_characterization (k : ℝ) (s : List RVal) (i : ℕ) :
    (detectFlag ((ThreeSigmaDetector.init k).fit s) s i ↔
      ∃ v m d, s.getD i none = some v ∧ pmean s = some m ∧ pstd s = some d ∧
        (v < m - k * d ∨ m + k * d < v)) ∧
    (s.getD i none = none →
      ¬ detectFlag ((ThreeSigmaDetector.init k).fit s) s i) ∧
    ((∀ x ∈ nonNull s, ∀ y ∈ nonNull s, x = y) →
      ¬ detectFlag ((ThreeSigmaDetector.init k).fit s) s i) := by
  have hth : ((ThreeSigmaDetector.init k).fit s).thresholds =
      some ⟨pmean s, pstd s, rvAdd (pmean s) (rvScale k (pstd s)),
            rvSub (pmean s) (rvScale k (pstd s))⟩ := rfl
  have hmain : detectFlag ((ThreeSigmaDetector.init k).fit s) s i ↔
      ∃ v m d, s.getD i none = some v ∧ pmean s = some m ∧ pstd s = some d ∧
        (v < m - k * d ∨ m + k * d < v) := by
    rw [detectFlag_iff hth s i]
    constructor
    · rintro ⟨v, hv, ha⟩
      rcases (isAnomaly_fit_iff k s v).1 ha with ⟨m, d, hm, hd, hcmp⟩
      exact ⟨v, m, d, hv, hm, hd, hcmp⟩
    · rintro ⟨v, m, d, hv, hm, hd, hcmp⟩
      exact ⟨v, hv, (isAnomaly_fit_iff k s v).2 ⟨m, d, hm, hd, hcmp⟩⟩
  refine ⟨hmain, ?_, ?_⟩
  · intro hnull hflag
    rcases hmain.1 hflag with ⟨v, m, d, hv, -⟩
    rw [hnull] at hv
    cases hv
  · intro hall hflag
    rcases hmain.1 hflag with ⟨v, m, d, hv, hm, hd, hcmp⟩
    have hvmem : v ∈ nonNull s := mem_nonNull_of_getD hv
    have hallv : ∀ x ∈ nonNull s, x = v := fun x hx => hall x hx v hvmem
    have hlen : (nonNull s).length ≠ 0 := by
      intro h0
      rw [List.length_eq_zero] at h0
      rw [h0] at hvmem
      cases hvmem
    have hsum : (nonNull s).sum = (nonNull s).length * v := sum_allEq hallv
    have hlenR : ((nonNull s).length : ℝ) ≠ 0 := Nat.cast_ne_zero.2 hlen
    have hsl : (nonNull s).sum / ((nonNull s).length : ℝ) = v := by
      rw [hsum]
      exact mul_div_cancel_left₀ v hlenR
    have hmv : m = v := by
      simp only [pmean] at hm
      rw [if_neg hlen] at hm
      have hm2 := Option.some.inj hm
      rw [← hm2]
      exact hsl
    have hdv : d = 0 := by
      simp only [pstd] at hd
      split at hd
      · cases hd
      · have hd2 := Option.some.inj hd
        have hS : ((nonNull s).map
            (fun x => (x - (nonNull s).sum / ((nonNull s).length : ℝ)) ^ 2)).sum = 0 :=
          map_sum_zero (fun x hx => by rw [hallv x hx, hsl, sub_self]; simp)
        rw [hS, zero_div, Real.sqrt_zero] at hd2
        exact hd2.symm
    rw [hmv, hdv] at hcmp
    simp at hcmp

/-- C2 witness: a null position of a concrete series is not flagged. -/
theorem C2_detect_characterization_witness :
    ¬ detectFlag ((ThreeSigmaDetector.init 2).fit [some 5, some 5, none])
        [some 5, some 5, none] 2 :=
  (C2_detect_characterization 2 [some 5, some 5, none] 2).2.1 rfl

/-- C4: a `detect` call on an already-fitted detector classifies any
series — including ones different from the fitted one — against the
stored thresholds and leaves the state unchanged; `fit` runs implicitly
only when no thresholds are stored. -/
theorem C4_sticky_thresholds (d : ThreeSigmaDetector) (s : List RVal) :
    (∀ t, d.thresholds = some t → d.detect s = (d, s.map (isAnomaly t))) ∧
    (d.thresholds = none → (d.detect s).1 = d.fit s) := by
  constructor
  · intro t h
    have hst : d.detectState s = d := by
      unfold ThreeSigmaDetector.detectState
      rw [h]
    simp only [ThreeSigmaDetector.detect, hst, h, Option.getD_some]
  · intro h
    have hst : d.detectState s = d.fit s := by
      unfold ThreeSigmaDetector.detectState
      rw [h]
    simp only [ThreeSigmaDetector.detect, hst]

/-- C4 witness: a fitted detector applied to a different series. -/
theorem C4_sticky_thresholds_witness :
    ((ThreeSigmaDetector.init 3).fit [some 1, some 2]).detect [some 9] =
      ((ThreeSigmaDetector.init 3).fit [some 1, some 2],
        [some 9].map (isAnomaly
          ⟨pmean [some 1, some 2], pstd [some 1, some 2],
           rvAdd (pmean [some 1, some 2]) (rvScale 3 (pstd [some 1, some 2])),
           rvSub (pmean [some 1, some 2]) (rvScale 3 (pstd [some 1, some 2]))⟩)) ∧
    ((ThreeSigmaDetector.init 3).detect [some 9]).1 =
      (ThreeSigmaDetector.init 3).fit [some 9] :=
  ⟨(C4_sticky_thresholds _ [some 9]).1 _ rfl,
   (C4_sticky_thresholds _ [some 9]).2 rfl⟩

/-- C8 (counterexample): constructing the detector with sigma level 0
succeeds — no validation exists — and the resulting detector fits and
detects normally: on `[1,3]` the collapsed bounds flag position 0. -/
theorem C8_counterexample :
    (ThreeSigmaDetector.init 0).sigma_level = 0 ∧
    (ThreeSigmaDetector.init 0).thresholds = none ∧
    detectFlag ((ThreeSigmaDetector.init 0).fit [some 1, some 3])
      [some 1, some 3] 0 := by
  refine ⟨rfl, rfl, ?_⟩
  refine (detectFlag_iff rfl _ _).2 ⟨1, rfl, ?_⟩
  have hnn : nonNull [some (1:ℝ), some 3] = [1, 3] := rfl
  refine (isAnomaly_fit_iff 0 [some 1, some 3] 1).2
    ⟨2, Real.sqrt 2, ?_, ?_, Or.inl (by norm_num)⟩
  · norm_num [pmean, hnn]
  · norm_num [pstd, hnn]

/-- C8 (amended): `__init__` stores any sigma level without validation —
zero and negative included — and `fit` then computes the thresholds with
that level; no `InvalidConfiguration` error exists in the code. -/
theorem C8_amended (k : ℝ) (s : List RVal) :
    (ThreeSigmaDetector.init k).sigma_level = k ∧
    (ThreeSigmaDetector.init k).thresholds = none ∧
    ((ThreeSigmaDetector.init k).fit s).thresholds =
      some ⟨pmean s, pstd s, rvAdd (pmean s) (rvScale k (pstd s)),
            rvSub (pmean s) (rvScale k (pstd s))⟩ :=
  ⟨rfl, rfl, rfl⟩

/-- C10 (counterexample): fitting on the single non-null value 5 stores
mean `5` — not NaN — while std and both bounds are NaN; the claim's
"the stored mean ... [is] NaN" fails for a one-value series. -/
theorem C10_counterexample :
    ((ThreeSigmaDetector.init 3).fit [some 5]).thresholds =
      some ⟨some 5, none, none, none⟩ ∧
    (∀ t, ((ThreeSigmaDetector.init 3).fit [some 5]).thresholds = some t →
      t.mean ≠ none) := by
  have hnn : nonNull [some (5:ℝ)] = [5] := rfl
  have hmean : pmean [some (5:ℝ)] = some 5 := by
    norm_num [pmean, hnn]
  have hstd : pstd [some (5:ℝ)] = none := by
    norm_num [pstd, hnn]
  have hthr : ((ThreeSigmaDetector.init 3).fit [some 5]).thresholds =
      some ⟨some 5, none, none, none⟩ := by
    show some (⟨pmean [some 5], pstd [some 5],
      rvAdd (pmean [some 5]) (rvScale 3 (pstd [some 5])),
      rvSub (pmean [some 5]) (rvScale 3 (pstd [some 5]))⟩ : Thresholds) = _
    rw [hmean, hstd]
    rfl
  refine ⟨hthr, ?_⟩
  intro t ht hcon
  rw [hthr] at ht
  cases Option.some.inj ht
  cases hcon

/-- C10 (amended): when `fit` sees fewer than two non-null values, the
stored std and both bounds are NaN and subsequent `detect` calls flag
nothing; the stored mean is NaN only when there are no non-null values,
and equals the single value when there is exactly one. -/
theorem C10_amended (k : ℝ) (s : List RVal)
    (h : (nonNull s).length < 2) :
    ∃ t, ((ThreeSigmaDetector.init k).fit s).thresholds = some t ∧
      t.std = none ∧ t.upper_bound = none ∧ t.lower_bound = none ∧
      ((nonNull s).length = 0 → t.mean = none) ∧
      (∀ v, nonNull s = [v] → t.mean = some v) ∧
      (∀ s2 i, ¬ detectFlag ((ThreeSigmaDetector.init k).fit s) s2 i) := by
  have hstd : pstd s = none := by
    simp only [pstd]
    rw [if_pos h]
  have hscale : rvScale k (pstd s) = none := by
    rw [hstd]
    rfl
  have hup : rvAdd (pmean s) (rvScale k (pstd s)) = none := by
    rw [hscale]
    exact rvAdd_none_right _
  have hlo : rvSub (pmean s) (rvScale k (pstd s)) = none := by
    rw [hscale]
    exact rvSub_none_right _
  have hth : ((ThreeSigmaDetector.init k).fit s).thresholds =
      some ⟨pmean s, pstd s, rvAdd (pmean s) (rvScale k (pstd s)),
            rvSub (pmean s) (rvScale k (pstd s))⟩ := rfl
  refine ⟨_, hth, hstd, hup, hlo, ?_, ?_, ?_⟩
  · intro h0
    simp only [pmean]
    rw [if_pos h0]
  · intro v hv
    simp only [pmean, hv]
    norm_num
  · intro s2 i hflag
    rcases (detectFlag_iff hth s2 i).1 hflag with ⟨v, -, ha⟩
    simp only [isAnomaly, hlo, hup] at ha
    exact ha.elim (rvLt_none_right _) (rvLt_none_left _)

/-- C10 witness: the single-value series `[5]`. -/
theorem C10_amended_witness :
    ∃ t, ((ThreeSigmaDetector.init 3).fit [some 5]).thresholds = some t ∧
      t.std = none ∧ t.upper_bound = none ∧ t.lower_bound = none ∧
      ((nonNull [some (5:ℝ)]).length = 0 → t.mean = none) ∧
      (∀ v, nonNull [some (5:ℝ)] = [v] → t.mean = some v) ∧
      (∀ s2 i, ¬ detectFlag ((ThreeSigmaDetector.init 3).fit [some 5]) s2 i) :=
  C10_amended 3 [some 5] (by decide)

end WeatherPipeline
